import Mathlib

/-!
Shallow embedding of the SlugSync backend (src/backend/main.py): the
authorization and event-lifecycle core.  Users, events and favorites are
modelled as records in lists (the relational store); each endpoint body is
a function from its inputs and a database state to a response together with
the resulting database state.  Timestamps are integers; raising an
HTTPException is modelled as returning an error response with the HTTP
status code, leaving the database unchanged (nothing was committed before
the raise in the source).
-/

namespace SlugSync

/-- A row of the `user` table (main.py, class User). -/
structure UserAcc where
  id : Nat
  email : String
  name : String
  is_host : Bool
  created_at : Int
  deriving Repr, DecidableEq

/-- A row of the `eventmodel` table (main.py, class EventModel). -/
structure EventRec where
  id : Nat
  name : String
  starts_at : Int
  location : String
  ends_at : Option Int
  description : Option String
  host : Option String
  tags : Option String
  created_at : Int
  owner_id : Option Nat
  deriving Repr, DecidableEq

/-- A row of the `favorite` join table (main.py, class Favorite). -/
structure Favorite where
  user_id : Nat
  event_id : Nat
  created_at : Int
  deriving Repr, DecidableEq

/-- Request body for event creation (main.py, class EventIn).  FastAPI has
already parsed the timestamps; pydantic field types carry no length
constraints on this model. -/
structure EventIn where
  name : String
  starts_at : Int
  ends_at : Option Int := none
  location : String
  description : Option String := none
  host : Option String := none
  tags : Option String := none
  deriving Repr, DecidableEq

/-- Request body for partial event update (main.py, class EventUpdate).
`none` models a field absent from the request (pydantic exclude_unset). -/
structure EventUpdate where
  name : Option String := none
  location : Option String := none
  starts_at : Option Int := none
  ends_at : Option Int := none
  description : Option String := none
  host : Option String := none
  tags : Option String := none
  deriving Repr, DecidableEq

/-- An HTTPException raised by an endpoint, identified by its status code. -/
inductive ApiErr where
  /-- 404 -/
  | notFound
  /-- 403 -/
  | forbidden
  /-- 400 (the StateConflict outcomes of approve/revoke-host) -/
  | badRequest
  /-- 422 (pydantic validation failure) -/
  | validationError
  deriving Repr, DecidableEq

/-- Outcome of an endpoint body: a value returned, or an HTTPException. -/
inductive Resp (α : Type) where
  | ok (a : α)
  | err (e : ApiErr)
  deriving Repr, DecidableEq

/-- The relational store: the three tables, plus the primary-key counters
the database uses to assign fresh ids. -/
structure DB where
  users : List UserAcc
  events : List EventRec
  favorites : List Favorite
  next_user_id : Nat
  next_event_id : Nat
  deriving Repr, DecidableEq

/-- `EventIn.check_times` (main.py lines 114-118): pydantic model validator
that rejects the body iff `ends_at` is present and `ends_at <= starts_at`.
This is the only validation `EventIn` performs. -/
def EventIn.check_times (e : EventIn) : Bool :=
  match e.ends_at with
  | some t => decide (e.starts_at < t)
  | none => true

/-- The pydantic field constraints declared on `EventUpdate`
(main.py lines 132-139): name 1-120 chars, location 1-160 chars,
description at most 10000 chars, host at most 300 chars, when present. -/
def EventUpdate.fieldsValid (u : EventUpdate) : Bool :=
  (match u.name with
   | some s => decide (1 ≤ s.length) && decide (s.length ≤ 120)
   | none => true)
  && (match u.location with
      | some s => decide (1 ≤ s.length) && decide (s.length ≤ 160)
      | none => true)
  && (match u.description with
      | some s => decide (s.length ≤ 10000)
      | none => true)
  && (match u.host with
      | some s => decide (s.length ≤ 300)
      | none => true)

/-- `verify_ucsc_email` (main.py lines 171-173):
`email.lower().endswith("@ucsc.edu")`, expressed on the character lists. -/
def verify_ucsc_email (email : String) : Bool :=
  "@ucsc.edu".data.isSuffixOf (email.data.map Char.toLower)

/-- `session.get(EventModel, event_id)`: primary-key lookup. -/
def findEvent (db : DB) (eid : Nat) : Option EventRec :=
  db.events.find? (fun e => e.id == eid)

/-- `session.get(User, user_id)`: primary-key lookup. -/
def findUser (db : DB) (uid : Nat) : Option UserAcc :=
  db.users.find? (fun u => u.id == uid)

/-- `select(User).where(User.email == email)).first()`. -/
def findUserByEmail (db : DB) (email : String) : Option UserAcc :=
  db.users.find? (fun u => u.email == email)

/-- Whether the favorites table holds a row for this (user, event) pair. -/
def favPair (uid eid : Nat) (f : Favorite) : Bool :=
  f.user_id == uid && f.event_id == eid

/-- The get-or-create step of `authenticate_with_google`
(main.py lines 271-295): resolve the verified email to a user row,
creating one with `is_host=True` when the email is unknown, and promoting
an existing non-host row to `is_host=True`. -/
def authenticate_with_google_user (email name : String) (now : Int) (db : DB) :
    UserAcc × DB :=
  match findUserByEmail db email with
  | none =>
    let u : UserAcc :=
      { id := db.next_user_id, email := email, name := name,
        is_host := true, created_at := now }
    (u, { db with users := db.users ++ [u], next_user_id := db.next_user_id + 1 })
  | some u =>
    if u.is_host then (u, db)
    else
      let u' : UserAcc := { u with is_host := true }
      (u',
       { db with users := db.users.map fun x => if x.id == u.id then { x with is_host := true } else x })

/-- `approve_host_status` (main.py lines 406-434): admin endpoint body. -/
def approve_host_status (user_id : Nat) (db : DB) : Resp UserAcc × DB :=
  match findUser db user_id with
  | none => (.err .notFound, db)
  | some user =>
    if user.is_host then (.err .badRequest, db)
    else
      let user' : UserAcc := { user with is_host := true }
      (.ok user',
       { db with users := db.users.map fun x => if x.id == user_id then { x with is_host := true } else x })

/-- `revoke_host_status` (main.py lines 436-464): admin endpoint body. -/
def revoke_host_status (user_id : Nat) (db : DB) : Resp UserAcc × DB :=
  match findUser db user_id with
  | none => (.err .notFound, db)
  | some user =>
    if user.is_host then
      let user' : UserAcc := { user with is_host := false }
      (.ok user',
       { db with users := db.users.map fun x => if x.id == user_id then { x with is_host := false } else x })
    else (.err .badRequest, db)

/-- `create_event` (main.py lines 554-610): requires `is_host`, then stores
the row with `owner_id = current_user.id`.  The `event_data` argument has
already passed `EventIn.check_times` validation upstream of the endpoint. -/
def create_event (event_data : EventIn) (current_user : UserAcc) (now : Int)
    (db : DB) : Resp EventRec × DB :=
  if current_user.is_host then
    let db_event : EventRec :=
      { id := db.next_event_id, name := event_data.name,
        starts_at := event_data.starts_at, location := event_data.location,
        ends_at := event_data.ends_at, description := event_data.description,
        host := event_data.host, tags := event_data.tags,
        created_at := now, owner_id := some current_user.id }
    (.ok db_event,
     { db with events := db.events ++ [db_event],
               next_event_id := db.next_event_id + 1 })
  else (.err .forbidden, db)

/-- `db_event.sqlmodel_update(update_data)` with `exclude_unset=True`
(main.py line 638): supplied fields overwrite, absent fields are kept.
No time-ordering validation is performed here. -/
def sqlmodel_update (e : EventRec) (u : EventUpdate) : EventRec :=
  { e with
    name := u.name.getD e.name,
    location := u.location.getD e.location,
    starts_at := u.starts_at.getD e.starts_at,
    ends_at := match u.ends_at with | some t => some t | none => e.ends_at,
    description := match u.description with | some d => some d | none => e.description,
    host := match u.host with | some h => some h | none => e.host,
    tags := match u.tags with | some t => some t | none => e.tags }

/-- `update_event` (main.py lines 612-657): 404 when the event is absent,
403 when the caller does not own it, otherwise merge the supplied fields
and commit. -/
def update_event (event_id : Nat) (event_update : EventUpdate)
    (current_user : UserAcc) (db : DB) : Resp EventRec × DB :=
  match findEvent db event_id with
  | none => (.err .notFound, db)
  | some db_event =>
    if db_event.owner_id == some current_user.id then
      let e' := sqlmodel_update db_event event_update
      (.ok e',
       { db with events := db.events.map fun x => if x.id == event_id then e' else x })
    else (.err .forbidden, db)

/-- `delete_event` (main.py lines 659-686): 404 when absent, 403 when not
owned, otherwise delete every favorite row referencing the event and then
the event row itself, in the same commit. -/
def delete_event (event_id : Nat) (current_user : UserAcc) (db : DB) :
    Resp Unit × DB :=
  match findEvent db event_id with
  | none => (.err .notFound, db)
  | some event =>
    if event.owner_id == some current_user.id then
      (.ok (),
       { db with
         favorites := db.favorites.filter fun f => !(f.event_id == event_id),
         events := db.events.filter fun e => !(e.id == event_id) })
    else (.err .forbidden, db)

/-- `favorite_event` (main.py lines 728-751): 404 when the event is absent;
an existing (user, event) row makes the call a successful no-op; otherwise
one row is inserted. -/
def favorite_event (event_id : Nat) (current_user : UserAcc) (now : Int)
    (db : DB) : Resp Unit × DB :=
  match findEvent db event_id with
  | none => (.err .notFound, db)
  | some _ =>
    if db.favorites.any (favPair current_user.id event_id) then (.ok (), db)
    else
      (.ok (),
       { db with favorites :=
           db.favorites ++ [{ user_id := current_user.id, event_id := event_id,
                              created_at := now }] })

/-- `unfavorite_event` (main.py lines 764-792): delete the row when it
exists, succeed silently when it does not. -/
def unfavorite_event (event_id : Nat) (current_user : UserAcc) (db : DB) :
    Resp Unit × DB :=
  match db.favorites.find? (favPair current_user.id event_id) with
  | some _ =>
    (.ok (), { db with favorites := db.favorites.eraseP (favPair current_user.id event_id) })
  | none => (.ok (), db)

/-- Insertion step of a comparator sort on event rows. -/
def insertLe (le : EventRec → EventRec → Bool) (x : EventRec) :
    List EventRec → List EventRec
  | [] => [x]
  | y :: ys => if le y x then y :: insertLe le x ys else x :: y :: ys

/-- Insertion sort on event rows, modelling Python `list.sort(key=...)`
(the claims depend on ordering and membership, not on stability). -/
def sortLe (le : EventRec → EventRec → Bool) : List EventRec → List EventRec
  | [] => []
  | x :: xs => insertLe le x (sortLe le xs)

/-- Ascending comparison by start time (`key=lambda e: e.starts_at`). -/
def startLe (a b : EventRec) : Bool :=
  a.starts_at ≤ b.starts_at

/-- Descending comparison by start time (`reverse=True`). -/
def startGe (a b : EventRec) : Bool :=
  b.starts_at ≤ a.starts_at

/-- Python substring membership `needle in hay` on the underlying
character lists. -/
def containsSubstr (hay needle : String) : Bool :=
  (List.range (hay.data.length + 1)).any fun i =>
    needle.data.isPrefixOf (hay.data.drop i)

/-- The free-text filter of `list_events` (main.py lines 503-508):
case-insensitive substring match against name, description or location. -/
def qMatches (qs : String) (e : EventRec) : Bool :=
  let ql := qs.toLower
  containsSubstr e.name.toLower ql
  || containsSubstr (e.description.getD "").toLower ql
  || containsSubstr e.location.toLower ql

/-- `[t.strip().lower() for t in (event.tags or "").split(',') if t.strip()]`
(main.py line 511). -/
def tagList (tags : Option String) : List String :=
  ((tags.getD "").splitOn ",").filterMap fun t =>
    let s := t.trim
    if s = "" then none else some s.toLower

/-- The tag filter of `list_events` (main.py lines 509-513). -/
def tagMatches (tag : String) (e : EventRec) : Bool :=
  (tagList e.tags).contains tag.toLower

/-- `coalesce(ends_at, starts_at)` (main.py line 488). -/
def coalesceEnd (e : EventRec) : Int :=
  e.ends_at.getD e.starts_at

/-- The conjunction of all `list_events` filters (main.py lines 480-514):
the SQL where-clauses (past-event cutoff unless `include_past`, start-date
lower bound, start-date upper bound) and the Python-side q and tag filters. -/
def passesFilters (q tag : Option String) (start_date end_date : Option Int)
    (include_past : Bool) (now : Int) (e : EventRec) : Bool :=
  (include_past || decide (now ≤ coalesceEnd e))
  && (match start_date with | some d => decide (d ≤ e.starts_at) | none => true)
  && (match end_date with | some d => decide (e.starts_at ≤ d) | none => true)
  && (match q with | some qs => qMatches qs e | none => true)
  && (match tag with | some t => tagMatches t e | none => true)

/-- The rows of the events table surviving every `list_events` filter, in
table order. -/
def filterEvents (db : DB) (q tag : Option String)
    (start_date end_date : Option Int) (include_past : Bool) (now : Int) :
    List EventRec :=
  db.events.filter (passesFilters q tag start_date end_date include_past now)

/-- `list_events` (main.py lines 467-533): filter, sort ascending by start
time, then truncate to `limit`. -/
def list_events (db : DB) (q tag : Option String)
    (start_date end_date : Option Int) (limit : Nat) (include_past : Bool)
    (now : Int) : List EventRec :=
  (sortLe startLe (filterEvents db q tag start_date end_date include_past now)).take limit

/-- `list_favorites` (main.py lines 689-726): the events joined through the
favorites table for the current user, sorted descending by start time. -/
def list_favorites (current_user : UserAcc) (db : DB) : List EventRec :=
  sortLe startGe
    (db.events.filter fun e => db.favorites.any (favPair current_user.id e.id))

/-- Whether a response is a success. -/
def Resp.isOk {α : Type} : Resp α → Bool
  | .ok _ => true
  | .err _ => false

/-- Sample host account. -/
def alice : UserAcc :=
  { id := 1, email := "a@ucsc.edu", name := "A", is_host := true, created_at := 0 }

/-- Sample host account, not the owner of `ev1`. -/
def bob : UserAcc :=
  { id := 2, email := "b@ucsc.edu", name := "B", is_host := true, created_at := 0 }

/-- Sample non-host account. -/
def carol : UserAcc :=
  { id := 3, email := "c@ucsc.edu", name := "C", is_host := false, created_at := 0 }

/-- Sample event owned by `alice`, running from 100 to 200. -/
def ev1 : EventRec :=
  { id := 1, name := "Talk", starts_at := 100, location := "Hall",
    ends_at := some 200, description := none, host := none, tags := none,
    created_at := 0, owner_id := some 1 }

/-- Sample event owned by `bob`, starting at 300 with no end time. -/
def ev2 : EventRec :=
  { id := 2, name := "Fair", starts_at := 300, location := "Quad",
    ends_at := none, description := none, host := none, tags := none,
    created_at := 0, owner_id := some 2 }

/-- Favorite row: `bob` favorites `ev1`. -/
def fav21 : Favorite := { user_id := 2, event_id := 1, created_at := 0 }

/-- Favorite row: `bob` favorites `ev2`. -/
def fav22 : Favorite := { user_id := 2, event_id := 2, created_at := 0 }

/-- Sample database state. -/
def db0 : DB :=
  { users := [alice, bob, carol], events := [ev1, ev2],
    favorites := [fav21, fav22], next_user_id := 4, next_event_id := 3 }

/-- The state of `db0` after `alice` deletes event 1. -/
def db0AfterDelete : DB :=
  { users := [alice, bob, carol], events := [ev2],
    favorites := [fav22], next_user_id := 4, next_event_id := 3 }

/-- A valid creation body. -/
def eIn0 : EventIn :=
  { name := "Talk", starts_at := 100, location := "Hall" }

/-- A creation body with an empty name and an over-long location. -/
def eInBadFields : EventIn :=
  { name := "", starts_at := 100,
    location := String.mk (List.replicate 200 'x') }

/-- Membership in an insertion step. -/
theorem mem_insertLe (le : EventRec → EventRec → Bool) (x a : EventRec) :
    ∀ (l : List EventRec), a ∈ insertLe le x l ↔ a = x ∨ a ∈ l
  | [] => by simp [insertLe]
  | y :: ys => by
    simp only [insertLe]
    split
    · rw [List.mem_cons, mem_insertLe le x a ys, List.mem_cons]
      tauto
    · simp only [List.mem_cons]

/-- Sorting preserves membership. -/
theorem mem_sortLe (le : EventRec → EventRec → Bool) (a : EventRec) :
    ∀ (l : List EventRec), a ∈ sortLe le l ↔ a ∈ l
  | [] => Iff.rfl
  | x :: xs => by
    simp only [sortLe]
    rw [mem_insertLe le x a (sortLe le xs), mem_sortLe le a xs, List.mem_cons]

/-- Inserting into a list sorted ascending by start time keeps it sorted. -/
theorem pairwise_insertLe (x : EventRec) :
    ∀ (l : List EventRec),
      l.Pairwise (fun a b => a.starts_at ≤ b.starts_at) →
      (insertLe startLe x l).Pairwise (fun a b => a.starts_at ≤ b.starts_at)
  | [], _ => by simp [insertLe]
  | y :: ys, h => by
    rw [List.pairwise_cons] at h
    by_cases hc : startLe y x = true
    · rw [insertLe, if_pos hc, List.pairwise_cons]
      refine ⟨fun z hz => ?_, pairwise_insertLe x ys h.2⟩
      rcases (mem_insertLe startLe x z ys).mp hz with rfl | hzys
      · simpa [startLe] using hc
      · exact h.1 z hzys
    · rw [insertLe, if_neg hc, List.pairwise_cons]
      have hyx : ¬ y.starts_at ≤ x.starts_at := by simpa [startLe] using hc
      refine ⟨fun z hz => ?_, List.pairwise_cons.mpr h⟩
      rcases List.mem_cons.mp hz with rfl | hzys
      · omega
      · have := h.1 z hzys
        omega

/-- Insertion sort by start time yields an ascending list. -/
theorem pairwise_sortLe :
    ∀ (l : List EventRec),
      (sortLe startLe l).Pairwise (fun a b => a.starts_at ≤ b.starts_at)
  | [] => List.Pairwise.nil
  | x :: xs => by
    simp only [sortLe]
    exact pairwise_insertLe x (sortLe startLe xs) (pairwise_sortLe xs)

/-- `find?` commutes with a map that does not change the predicate's value
on any element. -/
theorem find?_map_congr {α : Type} (q : α → Bool) (φ : α → α)
    (hq : ∀ x, q (φ x) = q x) :
    ∀ (l : List α), (l.map φ).find? q = (l.find? q).map φ
  | [] => rfl
  | x :: xs => by
    simp only [List.map_cons, List.find?, hq x]
    cases hx : q x <;> simp [hx, find?_map_congr q φ hq xs]

/-- Claim C1: falsified by the code.  The owner of event 1 (starts_at 100,
ends_at 200) sends a partial update carrying only ends_at = 50;
`update_event` performs no time re-validation and commits the merged state
with ends_at = 50 <= starts_at = 100 — a state that `EventIn.check_times`
would have rejected at creation. -/
theorem update_event_commits_invalid_times :
    update_event 1 { ends_at := some 50 } alice db0
      = (.ok { ev1 with ends_at := some 50 },
         { db0 with events := [{ ev1 with ends_at := some 50 }, ev2] })
    ∧ EventIn.check_times
        { name := ev1.name, starts_at := ev1.starts_at, ends_at := some 50,
          location := ev1.location } = false
    ∧ findEvent { db0 with events := [{ ev1 with ends_at := some 50 }, ev2] } 1
        = some { ev1 with ends_at := some 50 } := by
  decide

/-- Claim C2: for an existing event and an authenticated caller who is not
its owner, update and delete both return 403 Forbidden and leave the
database unchanged, regardless of the supplied fields; 404 NotFound is
returned exactly when the event does not exist; and the two outcomes are
distinct. -/
theorem update_delete_forbidden_for_non_owner
    (db : DB) (u : UserAcc) (eid : Nat) (upd : EventUpdate) (e : EventRec)
    (hfind : findEvent db eid = some e) (hown : e.owner_id ≠ some u.id) :
    update_event eid upd u db = (.err .forbidden, db)
    ∧ delete_event eid u db = (.err .forbidden, db)
    ∧ (∀ (db2 : DB) (u2 : UserAcc) (eid2 : Nat) (upd2 : EventUpdate),
        ((update_event eid2 upd2 u2 db2).1 = .err .notFound
          ↔ findEvent db2 eid2 = none)
        ∧ ((delete_event eid2 u2 db2).1 = .err .notFound
          ↔ findEvent db2 eid2 = none))
    ∧ ApiErr.forbidden ≠ ApiErr.notFound := by
  have hbeq : (e.owner_id == some u.id) = false := by
    simpa using hown
  refine ⟨?_, ?_, ?_, by decide⟩
  · simp [update_event, hfind, hbeq]
  · simp [delete_event, hfind, hbeq]
  · intro db2 u2 eid2 upd2
    constructor
    · cases hf : findEvent db2 eid2 with
      | none => simp [update_event, hf]
      | some ev =>
        simp only [update_event, hf]
        split <;> simp
    · cases hf : findEvent db2 eid2 with
      | none => simp [delete_event, hf]
      | some ev =>
        simp only [delete_event, hf]
        split <;> simp

/-- Witness for C2 at a concrete input: `bob` cannot update `alice`'s
event. -/
theorem update_delete_forbidden_for_non_owner_witness :
    update_event 1 { name := some "Hijack" } bob db0 = (.err .forbidden, db0) :=
  (update_delete_forbidden_for_non_owner db0 bob 1 { name := some "Hijack" }
    ev1 (by decide) (by decide)).1

/-- Claim C3: event creation succeeds only for a principal whose `is_host`
flag is true — a non-host gets 403 Forbidden with the database unchanged —
and every successfully created event carries `owner_id` equal to the
creator's account id and is appended to the events table. -/
theorem create_event_requires_host
    (data : EventIn) (u : UserAcc) (now : Int) (db : DB) :
    (u.is_host = false → create_event data u now db = (.err .forbidden, db))
    ∧ (∀ (e : EventRec) (db' : DB), create_event data u now db = (.ok e, db') →
        u.is_host = true ∧ e.owner_id = some u.id
          ∧ db'.events = db.events ++ [e])
    ∧ (u.is_host = true → (create_event data u now db).1.isOk = true) := by
  refine ⟨fun h => by simp [create_event, h], ?_, fun h => by
    simp [create_event, h, Resp.isOk]⟩
  intro e db' h
  cases hh : u.is_host with
  | false => simp [create_event, hh] at h
  | true =>
    simp only [create_event, hh, if_true] at h
    injection h with h1 h2
    injection h1 with h3
    subst h3
    subst h2
    exact ⟨rfl, rfl, by simp⟩

/-- Witness for C3 at a concrete input: non-host `carol` is refused. -/
theorem create_event_requires_host_witness :
    create_event eIn0 carol 0 db0 = (.err .forbidden, db0) :=
  (create_event_requires_host eIn0 carol 0 db0).1 rfl

/-- Claim C4: with include_past = false, no returned event has
`coalesce(ends_at, starts_at)` strictly before the evaluation instant;
with include_past = true the result does not depend on the evaluation
instant at all, so such events are not excluded by this rule. -/
theorem list_events_excludes_concluded
    (db : DB) (q tag : Option String) (sd ed : Option Int) (limit : Nat)
    (now : Int) (e : EventRec)
    (he : e ∈ list_events db q tag sd ed limit false now) :
    now ≤ coalesceEnd e
    ∧ ∀ now2 now3 : Int,
        list_events db q tag sd ed limit true now2
          = list_events db q tag sd ed limit true now3 := by
  constructor
  · have h1 : e ∈ sortLe startLe (filterEvents db q tag sd ed false now) :=
      List.mem_of_mem_take he
    have h2 := (mem_sortLe startLe e _).mp h1
    have h3 := (List.mem_filter.mp h2).2
    simp only [passesFilters, Bool.false_or, Bool.and_eq_true,
      decide_eq_true_eq] at h3
    exact h3.1.1.1.1
  · intro now2 now3
    unfold list_events filterEvents
    have : ∀ x ∈ db.events,
        passesFilters q tag sd ed true now2 x
          = passesFilters q tag sd ed true now3 x := by
      intro x _
      simp [passesFilters]
    rw [List.filter_congr this]

/-- Witness for C4 at a concrete input: event 1 is returned at instant 50
and indeed has not concluded by then. -/
theorem list_events_excludes_concluded_witness :
    (50 : Int) ≤ coalesceEnd ev1 :=
  (list_events_excludes_concluded db0 none none none none 50 50 ev1
    (by decide)).1

/-- Claim C5: a successful delete leaves no favorite row referencing the
deleted event, and afterwards no account's favorites listing contains an
event with the deleted id. -/
theorem delete_event_purges_favorites
    (eid : Nat) (u : UserAcc) (db db' : DB)
    (h : delete_event eid u db = (.ok (), db')) :
    (∀ f ∈ db'.favorites, f.event_id ≠ eid)
    ∧ ∀ (v : UserAcc), ∀ e ∈ list_favorites v db', e.id ≠ eid := by
  have hdb : db'.favorites = db.favorites.filter (fun f => !(f.event_id == eid))
      ∧ db'.events = db.events.filter (fun e => !(e.id == eid)) := by
    cases hf : findEvent db eid with
    | none => simp [delete_event, hf] at h
    | some ev =>
      simp only [delete_event, hf] at h
      split at h
      · injection h with h1 h2
        subst h2
        exact ⟨rfl, rfl⟩
      · simp at h
  obtain ⟨hfav, hev⟩ := hdb
  constructor
  · intro f hf
    rw [hfav] at hf
    have := (List.mem_filter.mp hf).2
    simpa using this
  · intro v e he
    have h1 := (mem_sortLe startGe e _).mp he
    have h2 := (List.mem_filter.mp h1).1
    rw [hev] at h2
    have := (List.mem_filter.mp h2).2
    simpa using this

/-- Witness for C5 at a concrete input: after `alice` deletes event 1, the
surviving favorite row and `bob`'s favorites listing avoid event 1. -/
theorem delete_event_purges_favorites_witness :
    ev2.id ≠ 1 ∧ fav22.event_id ≠ 1 := by
  have h := delete_event_purges_favorites 1 alice db0 db0AfterDelete (by decide)
  exact ⟨h.2 bob ev2 (by decide), h.1 fav22 (by decide)⟩

/-- A favorite call is a successful no-op when the pair is already in the
ledger. -/
theorem favorite_event_pair_present
    (eid : Nat) (u : UserAcc) (now : Int) (db : DB) (e : EventRec)
    (hev : findEvent db eid = some e)
    (hany : db.favorites.any (favPair u.id eid) = true) :
    favorite_event eid u now db = (.ok (), db) := by
  simp [favorite_event, hev, hany]

/-- Claim C6: from a state where (account, event) is not in the ledger and
the event exists, the first add succeeds and leaves exactly one matching
row, the second add succeeds and changes nothing, and removing the absent
pair is a successful no-op. -/
theorem favorite_add_remove_idempotent
    (eid : Nat) (u : UserAcc) (now1 now2 : Int) (db : DB) (e : EventRec)
    (hev : findEvent db eid = some e)
    (habs : db.favorites.countP (favPair u.id eid) = 0) :
    (favorite_event eid u now1 db).1 = .ok ()
    ∧ ((favorite_event eid u now1 db).2).favorites.countP (favPair u.id eid) = 1
    ∧ favorite_event eid u now2 (favorite_event eid u now1 db).2
        = (.ok (), (favorite_event eid u now1 db).2)
    ∧ unfavorite_event eid u db = (.ok (), db) := by
  have hnone : db.favorites.any (favPair u.id eid) = false := by
    rw [List.any_eq_false]
    intro f hf
    exact List.countP_eq_zero.mp habs f hf
  have hpair : favPair u.id eid
      { user_id := u.id, event_id := eid, created_at := now1 } = true := by
    simp [favPair]
  have hd1 : favorite_event eid u now1 db
      = (.ok (), { db with favorites := db.favorites
          ++ [{ user_id := u.id, event_id := eid, created_at := now1 }] }) := by
    simp [favorite_event, hev, hnone]
  refine ⟨by rw [hd1], ?_, ?_, ?_⟩
  · rw [hd1]
    rw [List.countP_append, habs]
    simp [List.countP_cons, hpair]
  · have hdb1 : (favorite_event eid u now1 db).2
        = { db with favorites := db.favorites
            ++ [{ user_id := u.id, event_id := eid, created_at := now1 }] } := by
      rw [hd1]
    rw [hdb1]
    refine favorite_event_pair_present eid u now2 _ e ?_ ?_
    · exact hev
    · rw [List.any_append]
      simp [hpair]
  · have hfnone : db.favorites.find? (favPair u.id eid) = none :=
      List.find?_eq_none.mpr (List.countP_eq_zero.mp habs)
    simp [unfavorite_event, hfnone]

/-- Witness for C6 at a concrete input: `carol` favorites event 1 from a
state holding no such pair; exactly one row results. -/
theorem favorite_add_remove_idempotent_witness :
    ((favorite_event 1 carol 7 db0).2).favorites.countP (favPair carol.id 1)
      = 1 :=
  (favorite_add_remove_idempotent 1 carol 7 8 db0 ev1 (by decide)
    (by decide)).2.1

/-- Claim C7: approving an account that is already a host and revoking one
that is not both yield the 400 StateConflict outcome with the database
unchanged; in the non-conflict cases the flag is set to the requested
value in the stored account. -/
theorem approve_revoke_host_state_machine
    (uid : Nat) (db : DB) (user : UserAcc)
    (hfind : findUser db uid = some user) :
    (user.is_host = true → approve_host_status uid db = (.err .badRequest, db))
    ∧ (user.is_host = false → revoke_host_status uid db = (.err .badRequest, db))
    ∧ (user.is_host = false →
        (approve_host_status uid db).1 = .ok { user with is_host := true }
        ∧ findUser (approve_host_status uid db).2 uid
            = some { user with is_host := true })
    ∧ (user.is_host = true →
        (revoke_host_status uid db).1 = .ok { user with is_host := false }
        ∧ findUser (revoke_host_status uid db).2 uid
            = some { user with is_host := false }) := by
  have hfind' : db.users.find? (fun x => x.id == uid) = some user := hfind
  have hid : (user.id == uid) = true := by
    have h' := List.find?_some hfind'
    simpa using h'
  have hq : ∀ (b : Bool) (x : UserAcc),
      ((if x.id == uid then { x with is_host := b } else x).id == uid)
        = (x.id == uid) := by
    intro b x
    split <;> rfl
  refine ⟨?_, ?_, ?_, ?_⟩
  · intro h
    simp [approve_host_status, hfind, h]
  · intro h
    simp [revoke_host_status, hfind, h]
  · intro h
    constructor
    · simp [approve_host_status, hfind, h]
    · simp only [approve_host_status, hfind, h]
      unfold findUser
      simp only [Bool.false_eq_true, if_false]
      rw [find?_map_congr (fun x => x.id == uid)
        (fun x => if x.id == uid then { x with is_host := true } else x)
        (hq true) db.users]
      rw [hfind']
      have huid : user.id = uid := by simpa using hid
      simp [huid]
  · intro h
    constructor
    · simp [revoke_host_status, hfind, h]
    · simp only [revoke_host_status, hfind, h, if_true]
      unfold findUser
      rw [find?_map_congr (fun x => x.id == uid)
        (fun x => if x.id == uid then { x with is_host := false } else x)
        (hq false) db.users]
      rw [hfind']
      have huid : user.id = uid := by simpa using hid
      simp [huid]

/-- Witness for C7 at a concrete input: approving the already-host `alice`
is a 400 conflict leaving the database unchanged. -/
theorem approve_revoke_host_state_machine_witness :
    approve_host_status 1 db0 = (.err .badRequest, db0) :=
  (approve_revoke_host_state_machine 1 db0 alice (by decide)).1 rfl

set_option maxRecDepth 8000 in
/-- Claim C8: falsified by the code.  `EventIn` declares no length
constraints, so its only validation `check_times` accepts a body with an
empty (0-character) name and a 200-character location, and `create_event`
stores it for a host caller — while the very same values are rejected by
the constraints `EventUpdate` declares for the update path. -/
theorem create_event_accepts_invalid_fields :
    EventIn.check_times eInBadFields = true
    ∧ eInBadFields.name.length = 0
    ∧ eInBadFields.location.length = 200
    ∧ (create_event eInBadFields alice 0 db0).1
        = .ok { id := 3, name := "", starts_at := 100,
                location := String.mk (List.replicate 200 'x'),
                ends_at := none, description := none, host := none,
                tags := none, created_at := 0, owner_id := some 1 }
    ∧ EventUpdate.fieldsValid
        { name := some eInBadFields.name,
          location := some eInBadFields.location } = false := by
  decide

/-- Claim C9: the query result is ascending by start time, and it is the
prefix obtained by truncating the fully filtered and sorted sequence to
`limit` (bounded 1-500 at the boundary): truncation happens after every
filter and the sort. -/
theorem list_events_sorted_truncated_after
    (db : DB) (q tag : Option String) (sd ed : Option Int) (limit : Nat)
    (ip : Bool) (now : Int) (h1 : 1 ≤ limit) (h2 : limit ≤ 500) :
    (list_events db q tag sd ed limit ip now).Pairwise
        (fun a b => a.starts_at ≤ b.starts_at)
    ∧ list_events db q tag sd ed limit ip now
        ++ (sortLe startLe (filterEvents db q tag sd ed ip now)).drop limit
        = sortLe startLe (filterEvents db q tag sd ed ip now) := by
  unfold list_events
  exact ⟨List.Pairwise.sublist (List.take_sublist _ _) (pairwise_sortLe _),
    List.take_append_drop _ _⟩

/-- Witness for C9 at a concrete input: with limit 1 the result is the
one-element prefix of the sorted filtered sequence. -/
theorem list_events_sorted_truncated_after_witness :
    list_events db0 none none none none 1 false 50
      ++ (sortLe startLe (filterEvents db0 none none none none false 50)).drop 1
      = sortLe startLe (filterEvents db0 none none none none false 50) :=
  (list_events_sorted_truncated_after db0 none none none none 1 false 50
    (by decide) (by decide)).2

/-- Claim C10: after the get-or-create step of every successful Google
authentication of an institutional email, the resolved account has
`is_host = true` — an unknown email gets a fresh account with the flag set,
and a known non-host account is promoted — and the stored row for that
email reflects it, so an admin revocation does not survive the next login. -/
theorem authenticate_with_google_forces_host
    (email name : String) (now : Int) (db : DB)
    (hdom : verify_ucsc_email email = true) :
    ((authenticate_with_google_user email name now db).1).is_host = true
    ∧ ((authenticate_with_google_user email name now db).1).email = email
    ∧ findUserByEmail (authenticate_with_google_user email name now db).2 email
        = some (authenticate_with_google_user email name now db).1 := by
  cases hf : findUserByEmail db email with
  | none =>
    have hf' : db.users.find? (fun x => x.email == email) = none := hf
    have hres : authenticate_with_google_user email name now db
        = ({ id := db.next_user_id, email := email, name := name,
             is_host := true, created_at := now },
           { db with users := db.users ++ [{ id := db.next_user_id, email := email, name := name, is_host := true, created_at := now }], next_user_id := db.next_user_id + 1 }) := by
      unfold authenticate_with_google_user
      rw [hf]
    rw [hres]
    refine ⟨rfl, rfl, ?_⟩
    unfold findUserByEmail
    rw [List.find?_append, hf']
    simp
  | some u =>
    have hf' : db.users.find? (fun x => x.email == email) = some u := hf
    have hmail : u.email = email := by
      have h' := List.find?_some hf'
      simpa using h'
    cases hh : u.is_host with
    | true =>
      have hres : authenticate_with_google_user email name now db = (u, db) := by
        simp [authenticate_with_google_user, hf, hh]
      rw [hres]
      exact ⟨hh, hmail, hf⟩
    | false =>
      have hres : authenticate_with_google_user email name now db
          = ({ u with is_host := true },
             { db with users := db.users.map fun x => if x.id == u.id then { x with is_host := true } else x }) := by
        simp [authenticate_with_google_user, hf, hh]
      rw [hres]
      refine ⟨rfl, hmail, ?_⟩
      unfold findUserByEmail
      rw [find?_map_congr (fun x => x.email == email)
        (fun x => if x.id == u.id then { x with is_host := true } else x)
        (fun x => by dsimp only; split <;> rfl) db.users]
      rw [hf']
      simp

/-- Witness for C10 at a concrete input: non-host `carol` logging in with
her institutional email comes back with `is_host = true`. -/
theorem authenticate_with_google_forces_host_witness :
    ((authenticate_with_google_user "c@ucsc.edu" "C" 5 db0).1).is_host
      = true :=
  (authenticate_with_google_forces_host "c@ucsc.edu" "C" 5 db0 (by decide)).1

end SlugSync
